import Mathlib

/-!
Verification of the aztunnel relay (Go) against its natural-language
specification.  Go strings are shallowly embedded as `List Char` for the
allowlist / envelope / error-message layer and as `List Nat` (byte values)
for the cryptographic layer.  Machine integers are `Nat`/`Int` with explicit
reductions modulo 2^32 where the Go code relies on 32-bit wraparound.
-/

/-- Byte values of an ASCII string literal (convenience for stating
concrete inputs; all inputs in this development are ASCII). -/
def bytes (s : String) : List Nat := s.data.map Char.toNat

/-- Character list of a string literal. -/
def str (s : String) : List Char := s.data

/-- Check whether `pat` is an initial run of `s` (Go `strings.HasPrefix`). -/
def leadsWith : List Char → List Char → Bool
  | [], _ => true
  | _ :: _, [] => false
  | p :: ps, c :: cs => if p = c then leadsWith ps cs else false

/-- Index of the first occurrence of `pat` in `s` counting from `i`
(helper for `strIndex`). -/
def strIndexAux (pat : List Char) : List Char → Nat → Option Nat
  | [], i => if leadsWith pat [] then some i else none
  | c :: rest, i =>
      if leadsWith pat (c :: rest) then some i else strIndexAux pat rest (i + 1)

/-- Go `strings.Index`: index of the first occurrence of `pat` in `s`,
`none` when absent. -/
def strIndex (s pat : List Char) : Option Nat := strIndexAux pat s 0

/-- Go `strings.IndexAny`: index of the first character of `s` drawn from
`chars`, `none` when absent. -/
def firstIndexAmong (chars : List Char) : List Char → Option Nat
  | [] => none
  | c :: rest =>
      if c ∈ chars then some 0
      else (firstIndexAmong chars rest).map (· + 1)

/-- Go `strings.Contains` as a proposition: `pat` occurs somewhere in `s`. -/
def strContains (s pat : List Char) : Bool := (strIndex s pat).isSome

/-- Translation of `sanitizeErr` (internal/relay/auth.go): strip the
`sb-hc-token=...` segment of an error message, the segment ending at the
first space or double quote at or after the token key; when no such
delimiter follows, everything from the token key onward is dropped.
The input and output are the `Error()` strings of the wrapped errors. -/
def sanitizeErr (s : List Char) : List Char :=
  match strIndex s (str "sb-hc-token=") with
  | none => s
  | some i =>
      match firstIndexAmong [ '"', ' ' ] (s.drop i) with
      | none => s.take i ++ str "sb-hc-token=REDACTED"
      | some e => s.take i ++ str "sb-hc-token=REDACTED" ++ s.drop (i + e)

/-- Split a list at the first occurrence of `c`: `some (before, after)`
with `c` itself dropped, `none` when `c` is absent. -/
def breakAtFirst (c : Char) : List Char → Option (List Char × List Char)
  | [] => none
  | x :: xs =>
      if x = c then some ([], xs)
      else (breakAtFirst c xs).map (fun p => (x :: p.1, p.2))

/-- Split a list on every occurrence of `c` (Go `strings.Split` on a
one-byte separator); helper carrying the current field reversed. -/
def splitOnAux (c : Char) : List Char → List Char → List (List Char)
  | [], acc => [acc.reverse]
  | x :: xs, acc =>
      if x = c then acc.reverse :: splitOnAux c xs []
      else splitOnAux c xs (x :: acc)

/-- Go `strings.Split(s, c)` for a single-character separator. -/
def splitOn (c : Char) (s : List Char) : List (List Char) := splitOnAux c s []

/-- Bracketed branch of Go `net.SplitHostPort`: `rest` is the input with
the leading `[` removed.  The first `]` must be followed by the last colon
of the address; stray brackets anywhere are rejected. -/
def splitHostPortBracket (rest : List Char) : Option (List Char × List Char) :=
  match breakAtFirst ']' rest with
  | none => none
  | some (host, rem) =>
      if rem.head? = some ':' then
        let port := rem.tail
        if (':' ∈ port) ∨ ('[' ∈ host) ∨ ('[' ∈ port) ∨ (']' ∈ port) then none
        else some (host, port)
      else none

/-- Translation of Go `net.SplitHostPort`: the port follows the last
colon; a host containing colons must be bracketed (`[h]:p`); in the
unbracketed form a second colon, or any bracket, is an error (the Go
code takes the last colon, then rejects a host that still contains a
colon — equivalently, exactly one colon splits the string). -/
def splitHostPort (hostport : List Char) : Option (List Char × List Char) :=
  if hostport.head? = some '[' then splitHostPortBracket hostport.tail
  else
    match breakAtFirst ':' hostport with
    | none => none
    | some (host, port) =>
        if (':' ∈ port) ∨ ('[' ∈ hostport) ∨ (']' ∈ hostport) then none
        else some (host, port)

/-- Translation of `splitAllowEntry` (listener package): split an
allowlist entry at its LAST colon (the Go code scans from the end), so
the host side may itself contain colons; an entry with no colon is an
error. -/
def splitAllowEntry (entry : List Char) : Option (List Char × List Char) :=
  match breakAtFirst ':' entry.reverse with
  | none => none
  | some (revPort, revHost) => some (revHost.reverse, revPort.reverse)

/-! IP address parsing, following the Go standard library (`net.ParseIP`
delegates to `netip.ParseAddr`, Go 1.25): strict dotted-quad IPv4 with no
leading zeros, RFC-4291 IPv6 with at most one `::` and an optional
embedded IPv4 tail, zones rejected.  IPs are byte lists (length 4 or 16). -/

/-- Decimal digit test. -/
def isDigitCh (c : Char) : Bool := '0' ≤ c ∧ c ≤ '9'

/-- Hexadecimal digit test. -/
def isHexCh (c : Char) : Bool :=
  ('0' ≤ c ∧ c ≤ '9') ∨ ('a' ≤ c ∧ c ≤ 'f') ∨ ('A' ≤ c ∧ c ≤ 'F')

/-- Value of a hexadecimal digit. -/
def hexValCh (c : Char) : Nat :=
  if c ≤ '9' then c.toNat - 48
  else if c ≤ 'F' then c.toNat - 55
  else c.toNat - 87

/-- One dotted-quad field: 1-3 decimal digits, no leading zero, ≤ 255
(the Go 1.25 parser rejects leading zeros). -/
def parseV4Field (f : List Char) : Option Nat :=
  if f = [] then none
  else if ¬ f.all isDigitCh then none
  else if 3 < f.length then none
  else if f.head? = some '0' ∧ 1 < f.length then none
  else
    let v := f.foldl (fun a c => a * 10 + (c.toNat - 48)) 0
    if v ≤ 255 then some v else none

/-- Go `netip.parseIPv4`: exactly four dotted fields. -/
def parseIPv4 (s : List Char) : Option (List Nat) :=
  match splitOn '.' s with
  | [a, b, c, d] =>
      match parseV4Field a, parseV4Field b, parseV4Field c, parseV4Field d with
      | some va, some vb, some vc, some vd => some [va, vb, vc, vd]
      | _, _, _, _ => none
  | _ => none

/-- Locate the first `::` of an IPv6 literal, returning the parts before
and after it. -/
def findDoubleColon : List Char → Option (List Char × List Char)
  | [] => none
  | ':' :: ':' :: rest => some ([], rest)
  | c :: rest => (findDoubleColon rest).map (fun p => (c :: p.1, p.2))

/-- One 16-bit IPv6 group: 1-4 hex digits, big-endian byte pair. -/
def parseV6Group (g : List Char) : Option (List Nat) :=
  if g = [] then none
  else if ¬ g.all isHexCh then none
  else if 4 < g.length then none
  else
    let v := g.foldl (fun a c => a * 16 + hexValCh c) 0
    some [v / 256, v % 256]

/-- Parse a colon-separated group list whose LAST group may be an
embedded dotted-quad IPv4 (Go allows the IPv4 form only at the very end
of the address). -/
def parseV6Groups : List (List Char) → Option (List Nat)
  | [] => some []
  | [g] =>
      if '.' ∈ g then parseIPv4 g else parseV6Group g
  | g :: rest =>
      match parseV6Group g, parseV6Groups rest with
      | some b2, some more => some (b2 ++ more)
      | _, _ => none

/-- Parse a group list in which an embedded IPv4 tail is not allowed
(the part before a `::`, which is never at the end of the address). -/
def parseV6GroupsNoV4 : List (List Char) → Option (List Nat)
  | [] => some []
  | g :: rest =>
      match parseV6Group g, parseV6GroupsNoV4 rest with
      | some b2, some more => some (b2 ++ more)
      | _, _ => none

/-- Go `netip.parseIPv6`.  With no `::` the groups must fill exactly 16
bytes; with one `::` they must fill at most 14 (so the `::` expands to at
least one zero group); a second `::` surfaces as an empty group of the
right-hand side and is rejected; zones (`%`) are rejected as
`net.ParseIP` does. -/
def parseIPv6 (s : List Char) : Option (List Nat) :=
  if '%' ∈ s then none
  else
    match findDoubleColon s with
    | some (l, r) =>
        let lgs := if l = [] then [] else splitOn ':' l
        let rgs := if r = [] then [] else splitOn ':' r
        match parseV6GroupsNoV4 lgs, parseV6Groups rgs with
        | some lb, some rb =>
            if lb.length + rb.length ≤ 14 then
              some (lb ++ List.replicate (16 - lb.length - rb.length) 0 ++ rb)
            else none
        | _, _ => none
    | none =>
        match parseV6Groups (splitOn ':' s) with
        | some bs => if bs.length = 16 then some bs else none
        | none => none

/-- Go `net.ParseIP`: dispatch on the first `.`/`:`/`%` of the input;
an IPv4 result is returned in its 16-byte IPv4-in-IPv6 form, as the Go
function does. -/
def parseIP (s : List Char) : Option (List Nat) :=
  match s.find? (fun c => c = '.' ∨ c = ':' ∨ c = '%') with
  | some '.' =>
      (parseIPv4 s).map
        (fun v4 => [0, 0, 0, 0, 0, 0, 0, 0, 0, 0, 255, 255] ++ v4)
  | some ':' => parseIPv6 s
  | _ => none

/-- Go `net.CIDRMask(n, 8*len)` as a byte list. -/
def cidrMask (n len : Nat) : List Nat :=
  (List.range len).map (fun i =>
    if (i + 1) * 8 ≤ n then 255
    else if n ≤ i * 8 then 0
    else (255 <<< (8 - n % 8)) % 256)

/-- Decimal prefix length (Go `dtoi` applied to the whole mask string:
at least one digit and nothing but digits). -/
def parseMaskLen (s : List Char) : Option Nat :=
  if s = [] then none
  else if ¬ s.all isDigitCh then none
  else some (s.foldl (fun a c => a * 10 + (c.toNat - 48)) 0)

/-- Go `net.ParseCIDR`: split at the first `/`, parse the address (an
IPv4 address yields a 4-byte network, an IPv6 one a 16-byte network) and
the decimal prefix length; the returned network is the address masked.
The result is `(network, mask)`. -/
def parseCIDR (s : List Char) : Option (List Nat × List Nat) :=
  match breakAtFirst '/' s with
  | none => none
  | some (addr, maskStr) =>
      match parseMaskLen maskStr with
      | none => none
      | some n =>
          match addr.find? (fun c => c = '.' ∨ c = ':' ∨ c = '%') with
          | some '.' =>
              match parseIPv4 addr with
              | some ip4 =>
                  if n ≤ 32 then
                    let m := cidrMask n 4
                    some (List.zipWith (· &&& ·) ip4 m, m)
                  else none
              | none => none
          | some ':' =>
              match parseIPv6 addr with
              | some ip16 =>
                  if n ≤ 128 then
                    let m := cidrMask n 16
                    some (List.zipWith (· &&& ·) ip16 m, m)
                  else none
              | none => none
          | _ => none

/-- Go `IP.To4`: a 4-byte address, or the tail of a 16-byte
IPv4-in-IPv6 address; otherwise `none`. -/
def ipTo4 (ip : List Nat) : Option (List Nat) :=
  if ip.length = 4 then some ip
  else if ip.length = 16 ∧ ip.take 12 = [0, 0, 0, 0, 0, 0, 0, 0, 0, 0, 255, 255] then
    some (ip.drop 12)
  else none

/-- Go `networkNumberAndMask`: normalize the network to 4 bytes when it
is an IPv4 address, slicing a 16-byte mask accordingly. -/
def networkNumberAndMask (netIP mask : List Nat) : Option (List Nat × List Nat) :=
  let ip := match ipTo4 netIP with
    | some ip4 => some ip4
    | none => if netIP.length = 16 then some netIP else none
  match ip with
  | none => none
  | some ip =>
      if mask.length = 4 then
        if ip.length = 4 then some (ip, mask) else none
      else if mask.length = 16 then
        if ip.length = 4 then some (ip, mask.drop 12) else some (ip, mask)
      else none

/-- Pointwise masked equality of two addresses under a mask, requiring
the three lists to have equal length. -/
def maskedEq : List Nat → List Nat → List Nat → Bool
  | [], [], [] => true
  | a :: as_, b :: bs, m :: ms =>
      if a &&& m = b &&& m then maskedEq as_ bs ms else false
  | _, _, _ => false

/-- Go `(*IPNet).Contains`: normalize the candidate with `To4`, require
equal lengths, compare under the mask. -/
def ipnetContains (netIP mask ip0 : List Nat) : Bool :=
  match networkNumberAndMask netIP mask with
  | none => false
  | some (nn, m) =>
      let ip := (ipTo4 ip0).getD ip0
      if ip.length = nn.length then maskedEq nn ip m else false

/-- Body of the allowlist entry loop of `isAllowed` (listener package):
`*` admits unconditionally; a malformed entry is skipped; a port
mismatch skips; an entry host that parses as a CIDR admits when the
target IP lies in it; otherwise a byte-equal literal host match admits. -/
def allowEntryMatches (host port : List Char) (targetIP : Option (List Nat))
    (entry : List Char) : Bool :=
  if entry = str "*" then true
  else
    match splitAllowEntry entry with
    | none => false
    | some (aHost, aPort) =>
        if aPort ≠ str "*" ∧ aPort ≠ port then false
        else
          match parseCIDR aHost with
          | some (netIP, mask) =>
              match targetIP with
              | some ip => ipnetContains netIP mask ip
              | none => false
          | none => decide (host = aHost)

/-- Translation of `isAllowed` (listener package): the target is split
with `net.SplitHostPort` (a failed split denies), its host is parsed as
an IP, and the entries are scanned with `allowEntryMatches`. -/
def isAllowed (target : List Char) (allowList : List (List Char)) : Bool :=
  match splitHostPort target with
  | none => false
  | some (host, port) =>
      let targetIP := parseIP host
      allowList.any (allowEntryMatches host port targetIP)

/-- Modelled from the claim's words (C1): the SAME admission decision,
except that the target is split on its LAST colon (the split
`splitAllowEntry` performs), so a target host may itself contain colons
without brackets.  This definition exists only to be compared with
`isAllowed`. -/
def isAllowedLastColon (target : List Char) (allowList : List (List Char)) : Bool :=
  match splitAllowEntry target with
  | none => false
  | some (host, port) =>
      let targetIP := parseIP host
      allowList.any (allowEntryMatches host port targetIP)

/-- From the listener `ListenAndServe` (unnamed listener source): a
warning that all targets will be permitted is logged at listener start
if and only if the configured allowlist is empty. -/
def noAllowlistWarning (allowList : List (List Char)) : Bool :=
  allowList.length = 0

/-! The envelope protocol and the listener connection handler. -/

/-- Wire protocol version (internal/protocol/envelope.go). -/
def CurrentVersion : Int := 1

/-- `protocol.ConnectEnvelope` (metadata omitted: it is never read by
the handler). -/
structure ConnectEnvelope where
  version : Int
  target : List Char
deriving DecidableEq

/-- `protocol.ConnectResponse`. -/
structure ConnectResponse where
  version : Int
  ok : Bool
  error : List Char
deriving DecidableEq

/-- Result of one run of the listener connection handler: whether a TCP
dial to the target was attempted, and the `ConnectResponse` written to
the peer (`none` when the envelope read itself failed, in which case the
handler returns without writing anything). -/
structure HandleResult where
  dialAttempted : Bool
  response : Option ConnectResponse
deriving DecidableEq

/-- Translation of `handleConnection` (listener package).  The I/O
environment is abstracted: `readResult` is `none` when the envelope read
fails, `some none` when the read succeeds but the JSON does not
unmarshal, and `some (some env)` for a parsed envelope; `dialOk` is the
outcome of the TCP dial to the target.  Each branch mirrors one early
return of the Go function. -/
def handleConnection (readResult : Option (Option ConnectEnvelope))
    (allowList : List (List Char)) (dialOk : Bool) : HandleResult :=
  match readResult with
  | none => ⟨false, none⟩
  | some none => ⟨false, some ⟨CurrentVersion, false, str "invalid envelope"⟩⟩
  | some (some env) =>
      if env.version ≠ CurrentVersion then
        ⟨false, some ⟨CurrentVersion, false, str "unsupported protocol version"⟩⟩
      else if env.target = [] then
        ⟨false, some ⟨CurrentVersion, false, str "missing target"⟩⟩
      else if 0 < allowList.length ∧ ¬ isAllowed env.target allowList then
        ⟨false, some ⟨CurrentVersion, false, str "target not allowed"⟩⟩
      else if ¬ dialOk then
        ⟨true, some ⟨CurrentVersion, false, str "connection failed"⟩⟩
      else
        ⟨true, some ⟨CurrentVersion, true, str ""⟩⟩

/-! SHA-256, HMAC, base64 and percent-encoding, as used by
`GenerateSASToken` (internal/relay/auth.go).  Words are `Nat` reduced
modulo 2^32. -/

/-- Reduce to a 32-bit word. -/
def w32 (n : Nat) : Nat := n % 4294967296

/-- Rotate a 32-bit word right by `k`. -/
def rotr32 (x k : Nat) : Nat := w32 ((x >>> k) ||| (x <<< (32 - k)))

/-- SHA-256 round constants (FIPS 180-4, in decimal). -/
def sha256K : List Nat :=
  [1116352408, 1899447441, 3049323471, 3921009573, 961987163, 1508970993,
   2453635748, 2870763221, 3624381080, 310598401, 607225278, 1426881987,
   1925078388, 2162078206, 2614888103, 3248222580, 3835390401, 4022224774,
   264347078, 604807628, 770255983, 1249150122, 1555081692, 1996064986,
   2554220882, 2821834349, 2952996808, 3210313671, 3336571891, 3584528711,
   113926993, 338241895, 666307205, 773529912, 1294757372, 1396182291,
   1695183700, 1986661051, 2177026350, 2456956037, 2730485921, 2820302411,
   3259730800, 3345764771, 3516065817, 3600352804, 4094571909, 275423344,
   430227734, 506948616, 659060556, 883997877, 958139571, 1322822218,
   1537002063, 1747873779, 1955562222, 2024104815, 2227730452, 2361852424,
   2428436474, 2756734187, 3204031479, 3329325298]

/-- SHA-256 initial hash value (FIPS 180-4, in decimal). -/
def sha256H0 : List Nat :=
  [1779033703, 3144134277, 1013904242, 2773480762,
   1359893119, 2600822924, 528734635, 1541459225]

/-- Big-endian 64-bit encoding of a `Nat` as eight bytes. -/
def be64 (n : Nat) : List Nat :=
  [(n >>> 56) % 256, (n >>> 48) % 256, (n >>> 40) % 256, (n >>> 32) % 256,
   (n >>> 24) % 256, (n >>> 16) % 256, (n >>> 8) % 256, n % 256]

/-- SHA-256 padding: a `0x80` byte, zeros to 56 mod 64, then the bit
length as a big-endian 64-bit integer. -/
def sha256Pad (msg : List Nat) : List Nat :=
  msg ++ [128] ++ List.replicate ((119 - msg.length % 64) % 64) 0
      ++ be64 (8 * msg.length)

/-- Split a byte list into 64-byte blocks (fuel-driven so that the
kernel can evaluate it). -/
def chunks64 : Nat → List Nat → List (List Nat)
  | 0, _ => []
  | _, [] => []
  | fuel + 1, l => l.take 64 :: chunks64 fuel (l.drop 64)

/-- Four big-endian bytes to a 32-bit word, folded over a block. -/
def beWords : List Nat → List Nat
  | a :: b :: c :: d :: rest => (a * 16777216 + b * 65536 + c * 256 + d) :: beWords rest
  | _ => []

/-- Message-schedule extension: prepend `k` further words to the
reversed word list `rw` (most recent first). -/
def sha256Extend : Nat → List Nat → List Nat
  | 0, rw => rw
  | k + 1, rw =>
      let w2 := rw.getD 1 0
      let w7 := rw.getD 6 0
      let w15 := rw.getD 14 0
      let w16 := rw.getD 15 0
      let s0 := (rotr32 w15 7) ^^^ (rotr32 w15 18) ^^^ (w15 >>> 3)
      let s1 := (rotr32 w2 17) ^^^ (rotr32 w2 19) ^^^ (w2 >>> 10)
      sha256Extend k (w32 (w16 + s0 + w7 + s1) :: rw)

/-- One SHA-256 compression round. -/
def sha256Round (st : List Nat) (kw : Nat × Nat) : List Nat :=
  match st with
  | [a, b, c, d, e, f, g, h] =>
      let S1 := (rotr32 e 6) ^^^ (rotr32 e 11) ^^^ (rotr32 e 25)
      let ch := (e &&& f) ^^^ ((4294967295 - e) &&& g)
      let t1 := w32 (h + S1 + ch + kw.1 + kw.2)
      let S0 := (rotr32 a 2) ^^^ (rotr32 a 13) ^^^ (rotr32 a 22)
      let maj := (a &&& b) ^^^ (a &&& c) ^^^ (b &&& c)
      let t2 := w32 (S0 + maj)
      [w32 (t1 + t2), a, b, c, w32 (d + t1), e, f, g]
  | other => other

/-- Compress one 64-byte block into the running hash. -/
def sha256Compress (h : List Nat) (block : List Nat) : List Nat :=
  let w16 := beWords block
  let w := (sha256Extend 48 w16.reverse).reverse
  let st := (sha256K.zip w).foldl sha256Round h
  List.zipWith (fun x y => w32 (x + y)) h st

/-- A 32-bit word as four big-endian bytes. -/
def wordBytes (n : Nat) : List Nat :=
  [(n >>> 24) % 256, (n >>> 16) % 256, (n >>> 8) % 256, n % 256]

/-- SHA-256 of a byte list (32 bytes). -/
def sha256 (msg : List Nat) : List Nat :=
  let padded := sha256Pad msg
  let h := (chunks64 padded.length padded).foldl sha256Compress sha256H0
  h.foldr (fun x acc => wordBytes x ++ acc) []

/-- HMAC-SHA256 (FIPS 198, as Go `crypto/hmac` computes it for a
64-byte-block hash). -/
def hmacSha256 (key msg : List Nat) : List Nat :=
  let k0 := if 64 < key.length then sha256 key else key
  let k := k0 ++ List.replicate (64 - k0.length) 0
  let ipad := k.map (fun b => b ^^^ 54)
  let opad := k.map (fun b => b ^^^ 92)
  sha256 (opad ++ sha256 (ipad ++ msg))

/-- Value of a 6-bit group in the standard base64 alphabet, as a byte. -/
def b64Char (i : Nat) : Nat :=
  if i < 26 then 65 + i
  else if i < 52 then 97 + (i - 26)
  else if i < 62 then 48 + (i - 52)
  else if i = 62 then 43
  else 47

/-- Go `base64.StdEncoding.EncodeToString`: standard alphabet with `=`
padding, output as ASCII bytes. -/
def base64Encode : List Nat → List Nat
  | [] => []
  | [a] =>
      [b64Char (a / 4), b64Char ((a % 4) * 16), 61, 61]
  | [a, b] =>
      [b64Char (a / 4), b64Char ((a % 4) * 16 + b / 16), b64Char ((b % 16) * 4), 61]
  | a :: b :: c :: rest =>
      b64Char (a / 4) :: b64Char ((a % 4) * 16 + b / 16)
        :: b64Char ((b % 16) * 4 + c / 64) :: b64Char (c % 64)
        :: base64Encode rest

/-- Bytes Go `url.QueryEscape` leaves unescaped: ASCII alphanumerics and
`-`, `_`, `.`, `~`. -/
def queryUnescaped (b : Nat) : Bool :=
  (65 ≤ b ∧ b ≤ 90) ∨ (97 ≤ b ∧ b ≤ 122) ∨ (48 ≤ b ∧ b ≤ 57)
    ∨ b = 45 ∨ b = 95 ∨ b = 46 ∨ b = 126

/-- Uppercase hexadecimal digit of a value below 16, as a byte. -/
def hexUpper (n : Nat) : Nat := if n < 10 then 48 + n else 55 + n

/-- Go `url.QueryEscape` on bytes: space becomes `+`, unreserved bytes
pass through, everything else becomes `%XX` with uppercase hex. -/
def queryEscape (bs : List Nat) : List Nat :=
  bs.flatMap (fun b =>
    if queryUnescaped b then [b]
    else if b = 32 then [43]
    else [37, hexUpper (b / 16), hexUpper (b % 16)])

/-- Go `strings.ToLower` restricted to ASCII bytes (every input in this
development is ASCII; on ASCII the Go function lowercases exactly the
bytes 65-90). -/
def toLowerByte (b : Nat) : Nat := if 65 ≤ b ∧ b ≤ 90 then b + 32 else b

/-- Decimal digits of a `Nat`, as ASCII bytes. -/
def natDecimal (n : Nat) : List Nat := (Nat.toDigits 10 n).map Char.toNat

/-- Go `fmt` `%d` of an `int64`, as ASCII bytes. -/
def intDecimal : Int → List Nat
  | Int.ofNat n => natDecimal n
  | Int.negSucc n => 45 :: natDecimal (n + 1)

/-- Default token lifetime (`tokenExpiry` in internal/relay/control.go):
one hour, in seconds. -/
def tokenExpirySec : Int := 3600

/-- Translation of `sign` (internal/relay/auth.go): base64 of
HMAC-SHA256 over `uri + "\n" + decimal(expiry)`. -/
def sign (uri : List Nat) (expiry : Int) (key : List Nat) : List Nat :=
  base64Encode (hmacSha256 key (uri ++ [10] ++ intDecimal expiry))

/-- Translation of `GenerateSASToken` (internal/relay/auth.go).  The Go
function reads the clock: `exp = time.Now().Add(expiry).Unix()`; the
clock is made explicit as `now` (Unix seconds) and `expiry` is the
duration argument in seconds.  The second component models the returned
`error`, which the Go code always sets to `nil`. -/
def GenerateSASToken (resourceURI keyName key : List Nat) (expiry now : Int) :
    List Nat × Option (List Nat) :=
  let uri := queryEscape (resourceURI.map toLowerByte)
  let exp := now + expiry
  let sig := sign uri exp key
  (bytes "SharedAccessSignature sr=" ++ uri
     ++ bytes "&sig=" ++ queryEscape sig
     ++ bytes "&se=" ++ intDecimal exp
     ++ bytes "&skn=" ++ keyName, none)

/-- `SASTokenProvider` (internal/relay/auth.go). -/
structure SASTokenProvider where
  KeyName : List Nat
  Key : List Nat

/-- Translation of `SASTokenProvider.GetToken`: forwards to
`GenerateSASToken` with the one-hour default lifetime. -/
def SASTokenProvider.GetToken (p : SASTokenProvider) (resourceURI : List Nat)
    (now : Int) : List Nat × Option (List Nat) :=
  GenerateSASToken resourceURI p.KeyName p.Key tokenExpirySec now

/-- Modelled from the claim's words (C2): the token with
`<u> = lowercase(url-encode(resourceURI))` — percent-encoding applied
BEFORE lowercasing — and the signature computed over that `<u>`.  This
definition exists only to be compared with `GenerateSASToken`. -/
def sasTokenClaimOrder (resourceURI keyName key : List Nat) (expiry now : Int) :
    List Nat :=
  let u := (queryEscape resourceURI).map toLowerByte
  let e := intDecimal (now + expiry)
  let canonical := u ++ [10] ++ e
  let s := queryEscape (base64Encode (hmacSha256 key canonical))
  bytes "SharedAccessSignature sr=" ++ u ++ bytes "&sig=" ++ s
    ++ bytes "&se=" ++ e ++ bytes "&skn=" ++ keyName

/-- The amended C2 formula, written in the spec's structure (canonical
string, then signature, then token) but with the encoding order the code
uses: `<u> = url-encode(lowercase(resourceURI))`. -/
def sasTokenAmended (resourceURI keyName key : List Nat) (expiry now : Int) :
    List Nat :=
  let u := queryEscape (resourceURI.map toLowerByte)
  let e := intDecimal (now + expiry)
  let canonical := u ++ [10] ++ e
  let s := queryEscape (base64Encode (hmacSha256 key canonical))
  bytes "SharedAccessSignature sr=" ++ u ++ bytes "&sig=" ++ s
    ++ bytes "&se=" ++ e ++ bytes "&skn=" ++ keyName

/-! The control-channel reconnect loop (internal/relay/control.go,
`ListenAndServe`).  One iteration runs `runControlLoop`, observes
whether it ever reached the Connected state and how long it ran, then
sleeps and doubles the delay.  Time is in milliseconds. -/

/-- Reconnect backoff floor: 1 s. -/
def reconnectMinMs : Nat := 1000

/-- Reconnect backoff cap: 30 s. -/
def reconnectMaxMs : Nat := 30000

/-- Backoff multiplier (`reconnectReset` in the Go source). -/
def reconnectMult : Nat := 2

/-- Observable outcome of one `runControlLoop` call: whether the
control WebSocket ever reached Connected, and how long the call took. -/
structure ControlRun where
  connected : Bool
  durationMs : Nat
deriving DecidableEq

/-- Translation of the reconnect loop body of `relay.ListenAndServe`:
per iteration, the delay is reset to the floor when the finished run
lasted longer than the cap (`time.Since(start) > reconnectMax` — the
`connected` flag is NOT consulted), that delay is slept, and the delay
for the next iteration is `min(delay*2, cap)`.  Returns the sequence of
slept delays for the given sequence of runs. -/
def reconnectDelays : List ControlRun → Nat → List Nat
  | [], _ => []
  | r :: rs, delay =>
      let d := if reconnectMaxMs < r.durationMs then reconnectMinMs else delay
      d :: reconnectDelays rs (min (d * reconnectMult) reconnectMaxMs)

/-- The delays `relay.ListenAndServe` sleeps, starting from the 1 s
floor. -/
def listenAndServeDelays (runs : List ControlRun) : List Nat :=
  reconnectDelays runs reconnectMinMs

/-- Modelled from the claim's words (C4): the same loop, but with the
delay reset exactly when the session HAD BEEN ESTABLISHED and outlived
the cap.  This definition exists only to be compared with
`reconnectDelays`. -/
def reconnectDelaysClaim : List ControlRun → Nat → List Nat
  | [], _ => []
  | r :: rs, delay =>
      let d := if r.connected ∧ reconnectMaxMs < r.durationMs then reconnectMinMs
               else delay
      d :: reconnectDelaysClaim rs (min (d * reconnectMult) reconnectMaxMs)

/-! `DialWithTimeout` (internal/relay/dial.go).  The dial attempts are
abstracted as an oracle: each entry gives the attempt's duration and
whether `Dial` returned successfully.  The model emits the observable
events — a dial attempt, an `onRetry` callback invocation, a backoff
sleep — and the final outcome.  Time is in milliseconds. -/

/-- Outcome of one `Dial` call inside the retry loop. -/
structure DialAttempt where
  durMs : Nat
  ok : Bool
deriving DecidableEq

/-- Observable events of `DialWithTimeout`. -/
inductive DialEv
  | attempt
  | retryCb
  | sleep (ms : Nat)
deriving DecidableEq

/-- Final outcome of `DialWithTimeout`. -/
inductive DialOutcome
  | success
  | failure
  | exhausted
deriving DecidableEq

/-- Base backoff delay of the dial retry loop: 1 s. -/
def dialRetryBaseMs : Nat := 1000

/-- Backoff cap of the dial retry loop: 30 s. -/
def dialRetryMaxMs : Nat := 30000

/-- Translation of the retry loop of `DialWithTimeout` for a positive
budget.  Per iteration: one `Dial` attempt (consuming its duration);
success returns; after a failure, if the budget is already spent the
loop breaks; otherwise the retry prelude runs — `onRetry` is invoked,
then the loop either aborts because the deadline fires before the
backoff timer (budget ≤ elapsed + delay) or sleeps the delay and
doubles it (capped).  `exhausted` marks a trace that ended because the
oracle ran out of attempts, not a behaviour of the code. -/
def dwtLoop : List DialAttempt → Nat → Nat → Nat → List DialEv × DialOutcome
  | [], _, _, _ => ([], DialOutcome.exhausted)
  | a :: rest, elapsed, delay, budget =>
      let e := elapsed + a.durMs
      if a.ok then ([DialEv.attempt], DialOutcome.success)
      else if budget ≤ e then ([DialEv.attempt], DialOutcome.failure)
      else if budget ≤ e + delay then
        ([DialEv.attempt, DialEv.retryCb], DialOutcome.failure)
      else
        let next := dwtLoop rest (e + delay) (min (delay * 2) dialRetryMaxMs) budget
        (DialEv.attempt :: DialEv.retryCb :: DialEv.sleep delay :: next.1, next.2)

/-- Translation of `DialWithTimeout`: a zero budget means a single
`Dial` with no retry machinery at all; a positive budget enters the
retry loop with a 1 s initial delay. -/
def DialWithTimeoutRun (budget : Nat) (attempts : List DialAttempt) :
    List DialEv × DialOutcome :=
  if budget = 0 then
    match attempts with
    | [] => ([], DialOutcome.exhausted)
    | a :: _ =>
        ([DialEv.attempt], if a.ok then DialOutcome.success else DialOutcome.failure)
  else dwtLoop attempts 0 dialRetryBaseMs budget

/-- The sleep durations of an event trace, in order. -/
def sleepsOf (evs : List DialEv) : List Nat :=
  evs.filterMap (fun e => match e with
    | DialEv.sleep ms => some ms
    | _ => none)

/-- The exponential backoff sequence 1 s, 2 s, 4 s, ... capped at 30 s,
starting at position `k`, of length `n`. -/
def backoffSeqFrom (k n : Nat) : List Nat :=
  (List.range n).map (fun i => min (dialRetryBaseMs * 2 ^ (k + i)) dialRetryMaxMs)

/-- Trace shape check: every sleep is immediately preceded by exactly
one `onRetry` invocation, and a trailing `onRetry` without a sleep is
allowed only at the very end of the trace (the budget fired before the
backoff timer). -/
def retryThenSleep : List DialEv → Bool
  | [] => true
  | DialEv.attempt :: rest => retryThenSleep rest
  | [DialEv.retryCb] => true
  | DialEv.retryCb :: DialEv.sleep _ :: rest => retryThenSleep rest
  | _ => false

/-! The bridge (internal/relay/bridge.go).  Each copier is summarised by
the chunks it moved and the event that terminated it; `Bridge` waits for
the first copier, unblocks and awaits the second, then snapshots both
byte counters.  Which copier finished first is part of the trace. -/

/-- Raw error values observed on the wire, after unwrapping: a
WebSocket close frame with its status code, a clean end of stream, or
anything else. -/
inductive WireErr
  | wsClose (code : Nat)
  | eof
  | unexpectedEOF
  | other (msg : List Char)
deriving DecidableEq

/-- WebSocket normal-closure status (`websocket.StatusNormalClosure`). -/
def statusNormalClosure : Nat := 1000

/-- Translation of `ignoreNormalClose`: a close error with the
normal-closure status maps to `nil`; every other error is returned
unchanged. -/
def ignoreNormalClose : WireErr → Option WireErr
  | WireErr.wsClose code =>
      if code = statusNormalClosure then none else some (WireErr.wsClose code)
  | e => some e

/-- Translation of `ignoreEOF`: `io.EOF` and `io.ErrUnexpectedEOF` map
to `nil`; every other error is returned unchanged. -/
def ignoreEOF : WireErr → Option WireErr
  | WireErr.eof => none
  | WireErr.unexpectedEOF => none
  | e => some e

/-- How the ws→tcp copier stopped: a WebSocket read error (filtered by
`ignoreNormalClose`), or an `io.Copy` failure after moving `n` bytes of
the current message (the counter is updated before the error is
returned). -/
inductive WsEnding
  | readErr (e : WireErr)
  | copyErr (n : Nat) (e : WireErr)
deriving DecidableEq

/-- Run of `wsToTCP`: `frames` are the sizes of the fully copied
messages; returns the final byte count and the returned error. -/
def wsToTCPRun (frames : List Nat) (ending : WsEnding) : Nat × Option WireErr :=
  match ending with
  | WsEnding.readErr e => (frames.sum, ignoreNormalClose e)
  | WsEnding.copyErr n e => (frames.sum + n, some e)

/-- How the tcp→ws copier stopped: a WebSocket write failure (the
counter is NOT incremented for the chunk whose write failed), or a TCP
read error together with the `n ≥ 0` bytes that same read returned and
that were written and counted first; the read error is filtered by
`ignoreEOF`. -/
inductive TcpEnding
  | writeErr (e : WireErr)
  | readErr (n : Nat) (e : WireErr)
deriving DecidableEq

/-- Run of `tcpToWS`: `reads` are the sizes of the fully forwarded
chunks; returns the final byte count and the returned error. -/
def tcpToWSRun (reads : List Nat) (ending : TcpEnding) : Nat × Option WireErr :=
  match ending with
  | TcpEnding.writeErr e => (reads.sum, some e)
  | TcpEnding.readErr n e => (reads.sum + n, ignoreEOF e)

/-- The two copy directions. -/
inductive BridgeDir
  | wsToTCP
  | tcpToWS
deriving DecidableEq

/-- `relay.BridgeStats`. -/
structure BridgeStats where
  TCPToWS : Nat
  WSToTCP : Nat
deriving DecidableEq

/-- One completed bridge, as observed at the WebSocket and TCP
boundaries: what each copier moved and how it stopped, and which copier
returned first. -/
structure BridgeTrace where
  wsFrames : List Nat
  wsEnding : WsEnding
  tcpReads : List Nat
  tcpEnding : TcpEnding
  firstDone : BridgeDir

/-- Translation of `Bridge`: the first value received on the error
channel — the (filtered) result of whichever copier finished first — is
the returned error; the stats are read only after the second copier has
also returned, so they hold both copiers' final counts. -/
def BridgeRun (t : BridgeTrace) : BridgeStats × Option WireErr :=
  let ws := wsToTCPRun t.wsFrames t.wsEnding
  let tcp := tcpToWSRun t.tcpReads t.tcpEnding
  let firstErr := match t.firstDone with
    | BridgeDir.wsToTCP => ws.2
    | BridgeDir.tcpToWS => tcp.2
  (⟨tcp.1, ws.1⟩, firstErr)

/-! Helper lemmas about the split functions. -/

theorem breakAtFirst_append (c : Char) (a b : List Char) (ha : c ∉ a) :
    breakAtFirst c (a ++ c :: b) = some (a, b) := by
  induction a with
  | nil => simp [breakAtFirst]
  | cons x xs ih =>
      have hx : ¬ x = c := fun h => ha (by simp [h])
      have hxs : c ∉ xs := fun h => ha (List.mem_cons_of_mem _ h)
      simp [breakAtFirst, hx, ih hxs]

theorem reverse_mid (a b : List Char) (c : Char) :
    (a ++ c :: b).reverse = b.reverse ++ c :: a.reverse := by
  simp

theorem splitAllowEntry_lastColon (h p : List Char) (hp : ':' ∉ p) :
    splitAllowEntry (h ++ ':' :: p) = some (h, p) := by
  unfold splitAllowEntry
  rw [reverse_mid, breakAtFirst_append _ _ _ (by simpa using hp)]
  simp

theorem splitHostPort_single_colon (h p : List Char)
    (h1 : ':' ∉ h) (h2 : '[' ∉ h) (h3 : ']' ∉ h)
    (h4 : ':' ∉ p) (h5 : '[' ∉ p) (h6 : ']' ∉ p) :
    splitHostPort (h ++ ':' :: p) = some (h, p) := by
  have d1 : ¬ ('[' : Char) = ':' := by decide
  have d2 : ¬ (']' : Char) = ':' := by decide
  cases h with
  | nil =>
      have hhead : ¬ ((':' :: p : List Char).head? = some '[') := by
        intro hc
        exact absurd (Option.some.inj hc) (by decide)
      simp only [List.nil_append, splitHostPort]
      rw [if_neg hhead]
      simp [breakAtFirst, h4, h5, h6, d1, d2]
  | cons x xs =>
      have hx : ¬ x = '[' := fun hc => h2 (by simp [hc])
      have hxs : '[' ∉ xs := fun hc => h2 (List.mem_cons_of_mem _ hc)
      have hxr : ¬ x = ']' := fun hc => h3 (by simp [hc])
      have hxsr : ']' ∉ xs := fun hc => h3 (List.mem_cons_of_mem _ hc)
      have h1c : ¬ x = ':' := fun hc => h1 (by simp [hc])
      have h1xs : ':' ∉ xs := fun hc => h1 (List.mem_cons_of_mem _ hc)
      have hx1 : ¬ ('[' : Char) = x := fun hc => hx hc.symm
      have hx2 : ¬ (']' : Char) = x := fun hc => hxr hc.symm
      have h1x : ¬ (':' : Char) = x := fun hc => h1c hc.symm
      have hhead : ¬ ((x :: (xs ++ ':' :: p) : List Char).head? = some '[') := by
        intro hc
        exact hx (Option.some.inj hc)
      have hbreak : breakAtFirst ':' (x :: (xs ++ ':' :: p)) = some (x :: xs, p) := by
        have hb := breakAtFirst_append ':' (x :: xs) p (by simp [h1x, h1xs])
        rwa [List.cons_append] at hb
      simp only [List.cons_append, splitHostPort]
      rw [if_neg hhead, hbreak]
      simp [h4, h5, h6, hxs, hxsr, hx1, hx2, d1, d2]

/-- C1, counterexample: on the target `"::1:80"` with allowlist
`["::1:80"]` the decision the claim describes (split the target on the
last colon, so an IPv6-style host works unbracketed) admits, but
`isAllowed` denies — `net.SplitHostPort` rejects an unbracketed host
containing colons, so the target is NOT split on its last colon. -/
theorem allowlist_lastColon_counterexample :
    isAllowedLastColon (str "::1:80") [str "::1:80"] = true
  ∧ isAllowed (str "::1:80") [str "::1:80"] = false := by decide

/-- C1 (amended): the allowlist decision splits the TARGET with
`net.SplitHostPort` — a well-formed `host:port` with a colon-free,
bracket-free host splits there, and any target malformed under that
split (including an unbracketed host containing colons) is denied —
while the allowlist ENTRY is split on its last colon, so only the entry
host may itself contain colons. -/
theorem allowlist_target_split_amended :
    (∀ (target : List Char) (allowList : List (List Char)),
        splitHostPort target = none → isAllowed target allowList = false)
  ∧ (∀ (host port : List Char),
        ':' ∉ host → '[' ∉ host → ']' ∉ host →
        ':' ∉ port → '[' ∉ port → ']' ∉ port →
        splitHostPort (host ++ ':' :: port) = some (host, port))
  ∧ (∀ (ehost eport : List Char), ':' ∉ eport →
        splitAllowEntry (ehost ++ ':' :: eport) = some (ehost, eport)) := by
  refine ⟨?_, fun h p h1 h2 h3 h4 h5 h6 =>
    splitHostPort_single_colon h p h1 h2 h3 h4 h5 h6,
    fun h p hp => splitAllowEntry_lastColon h p hp⟩
  intro target allowList hnone
  simp [isAllowed, hnone]

/-- Witness for C1's amended theorem at concrete inputs. -/
theorem allowlist_target_split_amended_witness :
    isAllowed (str "nocolon") [str "*"] = false
  ∧ splitHostPort (str "host" ++ ':' :: str "80") = some (str "host", str "80")
  ∧ splitAllowEntry (str "::1" ++ ':' :: str "80") = some (str "::1", str "80") :=
  ⟨allowlist_target_split_amended.1 (str "nocolon") [str "*"] (by decide),
   allowlist_target_split_amended.2.1 (str "host") (str "80")
     (by decide) (by decide) (by decide) (by decide) (by decide) (by decide),
   allowlist_target_split_amended.2.2 (str "::1") (str "80") (by decide)⟩

/-- Doubling a capped delay and capping again equals capping the
doubled raw delay. -/
theorem min_double_cap (m : Nat) : min (min m 30000 * 2) 30000 = min (m * 2) 30000 := by
  rcases Nat.le_total m 30000 with hle | hge
  · rw [Nat.min_eq_left hle]
  · rw [Nat.min_eq_right hge, Nat.min_eq_right (by omega), Nat.min_eq_right (by omega)]

/-- Backoff delays of a run of reconnect iterations none of which
outlives the cap: pure doubling from position `k`. -/
theorem reconnectDelays_noReset (runs : List ControlRun) :
    ∀ k : Nat, (∀ r ∈ runs, r.durationMs ≤ reconnectMaxMs) →
    reconnectDelays runs (min (1000 * 2 ^ k) 30000)
      = (List.range runs.length).map (fun i => min (1000 * 2 ^ (k + i)) 30000) := by
  induction runs with
  | nil => intro k _; simp [reconnectDelays]
  | cons r rs ih =>
      intro k h
      have hr : ¬ reconnectMaxMs < r.durationMs := not_lt.mpr (h r (by simp))
      have hrest : ∀ x ∈ rs, x.durationMs ≤ reconnectMaxMs :=
        fun x hx => h x (by simp [hx])
      have hnext : min (min (1000 * 2 ^ k) 30000 * reconnectMult) reconnectMaxMs
          = min (1000 * 2 ^ (k + 1)) 30000 := by
        show min (min (1000 * 2 ^ k) 30000 * 2) 30000 = _
        rw [min_double_cap]
        congr 1
        rw [pow_succ]
        ring
      simp only [reconnectDelays, hr, if_false]
      rw [hnext, ih (k + 1) hrest, List.length_cons, List.range_succ_eq_map]
      simp only [List.map_cons, List.map_map, Nat.add_zero]
      congr 1
      apply List.map_congr_left
      intro a _
      simp only [Function.comp_apply]
      congr 3
      omega

/-- C4, counterexample: after one short failure the delay is 2 s; a
second run that never connected but took 31 s still resets the next
sleep to 1 s in the code, while the claimed rule (reset only when the
session had been established) would sleep 2 s. -/
theorem reconnect_reset_counterexample :
    listenAndServeDelays [⟨false, 0⟩, ⟨false, 31000⟩] = [1000, 1000]
  ∧ reconnectDelaysClaim [⟨false, 0⟩, ⟨false, 31000⟩] reconnectMinMs
      = [1000, 2000] := by decide

/-- C4 (amended): the sleeps double from 1 s and cap at 30 s
(1, 2, 4, 8, 16, 30, 30, ...) as long as no run outlives the 30 s cap,
and the delay is reset to 1 s exactly when the previous `runControlLoop`
call lasted longer than the cap — whether or not it ever reached the
Connected state. -/
theorem reconnect_backoff_amended :
    (∀ runs : List ControlRun, (∀ r ∈ runs, r.durationMs ≤ reconnectMaxMs) →
        listenAndServeDelays runs
          = (List.range runs.length).map (fun i => min (1000 * 2 ^ i) 30000))
  ∧ (∀ (d : Nat) (r : ControlRun) (rs : List ControlRun),
        reconnectMaxMs < r.durationMs →
        (reconnectDelays (r :: rs) d).head? = some reconnectMinMs) := by
  constructor
  · intro runs h
    have h0 : reconnectMinMs = min (1000 * 2 ^ 0) 30000 := by decide
    rw [listenAndServeDelays, h0, reconnectDelays_noReset runs 0 h]
    simp
  · intro d r rs hr
    simp [reconnectDelays, hr]

/-- Witness for C4's amended theorem: seven short failures walk the
documented 1, 2, 4, 8, 16, 30, 30 sequence, and a 31 s run resets an
8 s delay to 1 s. -/
theorem reconnect_backoff_amended_witness :
    listenAndServeDelays
        [⟨true, 5000⟩, ⟨false, 0⟩, ⟨true, 100⟩, ⟨false, 2⟩, ⟨true, 3⟩,
         ⟨false, 4⟩, ⟨true, 5⟩]
      = [1000, 2000, 4000, 8000, 16000, 30000, 30000]
  ∧ (reconnectDelays [⟨false, 31000⟩] 8000).head? = some reconnectMinMs := by
  constructor
  · rw [reconnect_backoff_amended.1
      [⟨true, 5000⟩, ⟨false, 0⟩, ⟨true, 100⟩, ⟨false, 2⟩, ⟨true, 3⟩,
       ⟨false, 4⟩, ⟨true, 5⟩] (by decide)]
    decide
  · exact reconnect_backoff_amended.2 8000 ⟨false, 31000⟩ [] (by decide)

/-- Unfolding of the backoff sequence: the first delay is the capped
base-times-2^k, the rest is the sequence from `k+1`. -/
theorem backoffSeqFrom_succ (k n : Nat) :
    backoffSeqFrom k (n + 1)
      = min (dialRetryBaseMs * 2 ^ k) dialRetryMaxMs :: backoffSeqFrom (k + 1) n := by
  simp only [backoffSeqFrom, List.range_succ_eq_map, List.map_cons, List.map_map,
    Nat.add_zero]
  congr 1
  apply List.map_congr_left
  intro a _
  simp only [Function.comp_apply]
  congr 3
  omega

/-- Length of the backoff sequence. -/
theorem backoffSeqFrom_length (k n : Nat) : (backoffSeqFrom k n).length = n := by
  simp [backoffSeqFrom]

/-- The sleeps of a `dwtLoop` trace entered with the capped delay of
position `k` form an initial run of the backoff sequence from `k`. -/
theorem dwtLoop_sleeps (attempts : List DialAttempt) :
    ∀ (elapsed k budget : Nat),
    ∃ n, sleepsOf (dwtLoop attempts elapsed
        (min (dialRetryBaseMs * 2 ^ k) dialRetryMaxMs) budget).1
      = backoffSeqFrom k n := by
  induction attempts with
  | nil =>
      intro elapsed k budget
      exact ⟨0, by simp [dwtLoop, sleepsOf, backoffSeqFrom]⟩
  | cons a rest ih =>
      intro elapsed k budget
      by_cases h1 : a.ok
      · exact ⟨0, by simp [dwtLoop, h1, sleepsOf, backoffSeqFrom]⟩
      · by_cases h2 : budget ≤ elapsed + a.durMs
        · exact ⟨0, by simp [dwtLoop, h1, h2, sleepsOf, backoffSeqFrom]⟩
        · by_cases h3 : budget ≤ elapsed + a.durMs
              + min (dialRetryBaseMs * 2 ^ k) dialRetryMaxMs
          · exact ⟨0, by simp [dwtLoop, h1, h2, h3, sleepsOf, backoffSeqFrom]⟩
          · have hnext : min (min (dialRetryBaseMs * 2 ^ k) dialRetryMaxMs * 2)
                dialRetryMaxMs = min (dialRetryBaseMs * 2 ^ (k + 1)) dialRetryMaxMs := by
              have hb : dialRetryBaseMs = 1000 := rfl
              have hm : dialRetryMaxMs = 30000 := rfl
              rw [hb, hm, min_double_cap]
              congr 1
              rw [pow_succ]
              ring
            obtain ⟨n, hn⟩ := ih
              (elapsed + a.durMs + min (dialRetryBaseMs * 2 ^ k) dialRetryMaxMs)
              (k + 1) budget
            refine ⟨n + 1, ?_⟩
            simp only [dwtLoop, h1, h2, h3, if_false, Bool.false_eq_true]
            rw [backoffSeqFrom_succ]
            simp only [sleepsOf, List.filterMap_cons]
            rw [hnext] at *
            simp only [sleepsOf] at hn
            simp [hn]

/-- Every `dwtLoop` trace is an alternation of attempts and
retry-then-sleep pairs, with a bare trailing `onRetry` possible only at
the very end. -/
theorem dwtLoop_retryThenSleep (attempts : List DialAttempt) :
    ∀ (elapsed delay budget : Nat),
    retryThenSleep (dwtLoop attempts elapsed delay budget).1 = true := by
  induction attempts with
  | nil => intro elapsed delay budget; simp [dwtLoop, retryThenSleep]
  | cons a rest ih =>
      intro elapsed delay budget
      by_cases h1 : a.ok
      · simp [dwtLoop, h1, retryThenSleep]
      · by_cases h2 : budget ≤ elapsed + a.durMs
        · simp [dwtLoop, h1, h2, retryThenSleep]
        · by_cases h3 : budget ≤ elapsed + a.durMs + delay
          · simp [dwtLoop, h1, h2, h3, retryThenSleep]
          · simp only [dwtLoop, h1, h2, h3, if_false, Bool.false_eq_true]
            simp [retryThenSleep, ih]

/-- C7: with a zero budget `DialWithTimeout` makes exactly one `Dial`
attempt — no retry callback, no sleep; with a positive budget the slept
delays are exactly an initial run of the 1 s, 2 s, 4 s, ... sequence
capped at 30 s, and every sleep is immediately preceded by exactly one
`onRetry` invocation (a trailing `onRetry` without a sleep occurs only
when the budget fires before the backoff timer, at the very end). -/
theorem dialWithTimeout_backoff_contract :
    (∀ (a : DialAttempt) (rest : List DialAttempt),
        (DialWithTimeoutRun 0 (a :: rest)).1 = [DialEv.attempt])
  ∧ (∀ (budget : Nat) (attempts : List DialAttempt), 0 < budget →
        sleepsOf (DialWithTimeoutRun budget attempts).1
            = backoffSeqFrom 0 (sleepsOf (DialWithTimeoutRun budget attempts).1).length
          ∧ retryThenSleep (DialWithTimeoutRun budget attempts).1 = true) := by
  constructor
  · intro a rest
    simp [DialWithTimeoutRun]
  · intro budget attempts hb
    have hbne : ¬ budget = 0 := Nat.pos_iff_ne_zero.mp hb
    constructor
    · have hbase : dialRetryBaseMs
          = min (dialRetryBaseMs * 2 ^ 0) dialRetryMaxMs := by decide
      obtain ⟨n, hn⟩ := dwtLoop_sleeps attempts 0 0 budget
      simp only [DialWithTimeoutRun, hbne, if_false]
      rw [hbase, hn, backoffSeqFrom_length]
    · simp only [DialWithTimeoutRun, hbne, if_false]
      exact dwtLoop_retryThenSleep attempts 0 dialRetryBaseMs budget

/-- Witness for C7 at concrete inputs: a zero budget yields one attempt;
with a 10 s budget and three failing attempts of 100 ms the trace sleeps
1 s then 2 s, each sleep preceded by one `onRetry`. -/
theorem dialWithTimeout_backoff_contract_witness :
    (DialWithTimeoutRun 0 [⟨5, true⟩]).1 = [DialEv.attempt]
  ∧ sleepsOf (DialWithTimeoutRun 10000 [⟨100, false⟩, ⟨100, false⟩, ⟨100, true⟩]).1
      = backoffSeqFrom 0 (sleepsOf (DialWithTimeoutRun 10000
          [⟨100, false⟩, ⟨100, false⟩, ⟨100, true⟩]).1).length
  ∧ retryThenSleep (DialWithTimeoutRun 10000
        [⟨100, false⟩, ⟨100, false⟩, ⟨100, true⟩]).1 = true :=
  ⟨dialWithTimeout_backoff_contract.1 ⟨5, true⟩ [],
   (dialWithTimeout_backoff_contract.2 10000
      [⟨100, false⟩, ⟨100, false⟩, ⟨100, true⟩] (by decide)).1,
   (dialWithTimeout_backoff_contract.2 10000
      [⟨100, false⟩, ⟨100, false⟩, ⟨100, true⟩] (by decide)).2⟩

/-- The property C5 asserts of one handler run: a negative response
carries one of the five fixed phrases, each tied to its triggering
condition. -/
def errorStringJustified (readResult : Option (Option ConnectEnvelope))
    (allowList : List (List Char)) (dialOk : Bool) (r : ConnectResponse) : Prop :=
  (r.error = str "invalid envelope" ∧ readResult = some none)
  ∨ (∃ env, r.error = str "unsupported protocol version"
        ∧ readResult = some (some env) ∧ env.version ≠ CurrentVersion)
  ∨ (∃ env, r.error = str "missing target" ∧ readResult = some (some env)
        ∧ env.version = CurrentVersion ∧ env.target = [])
  ∨ (∃ env, r.error = str "target not allowed" ∧ readResult = some (some env)
        ∧ env.version = CurrentVersion ∧ env.target ≠ []
        ∧ 0 < allowList.length ∧ isAllowed env.target allowList = false)
  ∨ (∃ env, r.error = str "connection failed" ∧ readResult = some (some env)
        ∧ env.version = CurrentVersion ∧ env.target ≠ []
        ∧ ¬ (0 < allowList.length ∧ ¬ isAllowed env.target allowList)
        ∧ dialOk = false)

/-- C5: every negative `ConnectResponse` the handler writes carries
exactly one of the five fixed phrases, under its condition — no other
string and no internal detail is ever sent to the peer. -/
theorem handleConnection_error_strings
    (readResult : Option (Option ConnectEnvelope)) (allowList : List (List Char))
    (dialOk : Bool) (r : ConnectResponse)
    (hr : (handleConnection readResult allowList dialOk).response = some r)
    (hok : r.ok = false) :
    errorStringJustified readResult allowList dialOk r := by
  match readResult with
  | none => simp [handleConnection] at hr
  | some none =>
      replace hr := Option.some.inj hr
      exact Or.inl ⟨by rw [← hr], rfl⟩
  | some (some env) =>
      simp only [handleConnection] at hr
      split_ifs at hr with h1 h2 h3 h4
      · replace hr := Option.some.inj hr
        subst hr
        exact Or.inr (Or.inl ⟨env, rfl, rfl, h1⟩)
      · replace hr := Option.some.inj hr
        subst hr
        exact Or.inr (Or.inr (Or.inl ⟨env, rfl, rfl, not_not.mp (by simpa using h1), h2⟩))
      · replace hr := Option.some.inj hr
        subst hr
        exact Or.inr (Or.inr (Or.inr (Or.inl ⟨env, rfl, rfl,
          not_not.mp (by simpa using h1), h2, h3.1, by simpa using h3.2⟩)))
      · replace hr := Option.some.inj hr
        subst hr
        simp at hok
      · replace hr := Option.some.inj hr
        subst hr
        exact Or.inr (Or.inr (Or.inr (Or.inr ⟨env, rfl, rfl,
          not_not.mp (by simpa using h1), h2, h3, by simpa using h4⟩)))

/-- Witness for C5: an unparseable envelope produces the fixed
`invalid envelope` response, justified by its condition. -/
theorem handleConnection_error_strings_witness :
    errorStringJustified (some none) [] true
      ⟨CurrentVersion, false, str "invalid envelope"⟩ :=
  handleConnection_error_strings (some none) [] true
    ⟨CurrentVersion, false, str "invalid envelope"⟩ rfl rfl

/-- C9: with an empty allowlist the listener logs the one-time
startup warning and the handler admits every well-formed target — it
always proceeds to the TCP dial and never answers `target not
allowed`. -/
theorem empty_allowlist_admits_all :
    noAllowlistWarning [] = true
  ∧ (∀ (env : ConnectEnvelope) (dialOk : Bool),
        env.version = CurrentVersion → env.target ≠ [] →
        (handleConnection (some (some env)) [] dialOk).dialAttempted = true
        ∧ ∀ r, (handleConnection (some (some env)) [] dialOk).response = some r →
            r.error ≠ str "target not allowed") := by
  refine ⟨rfl, ?_⟩
  intro env dialOk h1 h2
  have hv : ¬ env.version ≠ CurrentVersion := not_not.mpr h1
  have hlen : ¬ (0 < ([] : List (List Char)).length ∧ ¬ isAllowed env.target []) := by
    simp
  constructor
  · simp only [handleConnection, if_neg hv, if_neg h2, if_neg hlen]
    by_cases h4 : dialOk
    · rw [if_neg (not_not_intro h4)]
    · rw [if_pos h4]
  · intro r hr
    simp only [handleConnection, if_neg hv, if_neg h2, if_neg hlen] at hr
    by_cases h4 : dialOk
    · rw [if_neg (not_not_intro h4)] at hr
      replace hr := Option.some.inj hr
      subst hr
      decide
    · rw [if_pos h4] at hr
      replace hr := Option.some.inj hr
      subst hr
      decide

/-- Witness for C9 at a concrete envelope. -/
theorem empty_allowlist_admits_all_witness :
    (handleConnection (some (some ⟨CurrentVersion, str "db:5432"⟩)) [] true).dialAttempted
      = true :=
  (empty_allowlist_admits_all.2 ⟨CurrentVersion, str "db:5432"⟩ true rfl
    (by decide)).1

/-- C6: the error a completed bridge returns is the (filtered) result of
whichever copy direction finished first — a normal-closure WebSocket
close maps to `nil`, an EOF or unexpected EOF on the TCP side maps to
`nil`, and a `nil` first result wins even when the other direction later
fails — and the returned stats hold both copiers' final byte counts,
the snapshot being taken only after both have returned. -/
theorem bridge_first_error_and_stats (t : BridgeTrace) :
    ((BridgeRun t).1.WSToTCP = (wsToTCPRun t.wsFrames t.wsEnding).1
      ∧ (BridgeRun t).1.TCPToWS = (tcpToWSRun t.tcpReads t.tcpEnding).1)
  ∧ (t.firstDone = BridgeDir.wsToTCP →
        (BridgeRun t).2 = (wsToTCPRun t.wsFrames t.wsEnding).2)
  ∧ (t.firstDone = BridgeDir.tcpToWS →
        (BridgeRun t).2 = (tcpToWSRun t.tcpReads t.tcpEnding).2)
  ∧ (t.firstDone = BridgeDir.wsToTCP →
        t.wsEnding = WsEnding.readErr (WireErr.wsClose statusNormalClosure) →
        (BridgeRun t).2 = none)
  ∧ (∀ n, t.firstDone = BridgeDir.tcpToWS →
        (t.tcpEnding = TcpEnding.readErr n WireErr.eof
          ∨ t.tcpEnding = TcpEnding.readErr n WireErr.unexpectedEOF) →
        (BridgeRun t).2 = none) := by
  obtain ⟨wsFrames, wsEnding, tcpReads, tcpEnding, firstDone⟩ := t
  refine ⟨⟨rfl, rfl⟩, ?_, ?_, ?_, ?_⟩
  · intro h
    subst h
    rfl
  · intro h
    subst h
    rfl
  · intro h hend
    subst h
    subst hend
    simp [BridgeRun, wsToTCPRun, ignoreNormalClose]
  · intro n h hend
    subst h
    rcases hend with hend | hend <;> subst hend <;>
      simp [BridgeRun, tcpToWSRun, ignoreEOF]

/-- Witness for C6 at a concrete trace: the WebSocket side closed
normally first after 7 bytes, the TCP side then failed with EOF after 5
bytes; the bridge returns no error and both totals. -/
theorem bridge_first_error_and_stats_witness :
    (BridgeRun ⟨[3, 4], WsEnding.readErr (WireErr.wsClose statusNormalClosure),
        [5], TcpEnding.readErr 0 WireErr.eof, BridgeDir.wsToTCP⟩).2 = none :=
  (bridge_first_error_and_stats
      ⟨[3, 4], WsEnding.readErr (WireErr.wsClose statusNormalClosure),
        [5], TcpEnding.readErr 0 WireErr.eof, BridgeDir.wsToTCP⟩).2.2.2.1
    rfl rfl

/-- C3 (code bug): `sanitizeErr` redacts only the FIRST
`sb-hc-token=` occurrence.  On the repository's own test input
`"first sb-hc-token=SECRET1 second sb-hc-token=SECRET2"` (the
"multiple tokens" case of TestSanitizeErr, which asserts that no
`SECRET` survives) the second token value is left in the result, so the
output still contains `sb-hc-token=` followed by `SECRET2` rather than
`REDACTED`. -/
theorem sanitizeErr_second_token_leaks :
    sanitizeErr (str "first sb-hc-token=SECRET1 second sb-hc-token=SECRET2")
        = str "first sb-hc-token=REDACTED second sb-hc-token=SECRET2"
  ∧ strContains
      (sanitizeErr (str "first sb-hc-token=SECRET1 second sb-hc-token=SECRET2"))
      (str "sb-hc-token=SECRET2") = true := by decide

/-- C10: `SASTokenProvider.GetToken` returns a nil error on every
input — in particular with an empty key and an empty key name it
returns a (useless) signed token rather than an error. -/
theorem sas_getToken_never_fails :
    ∀ (p : SASTokenProvider) (resourceURI : List Nat) (now : Int),
      (p.GetToken resourceURI now).2 = none :=
  fun _ _ _ => rfl

set_option maxRecDepth 4000 in
/-- C2, counterexample: at `resourceURI = "https://a"`, `keyName = "n"`,
`key = "k"`, a one-hour expiry and clock 0, the generated token differs
from the claim's formula: the code computes
`url-encode(lowercase(uri))` — giving `https%3A%2F%2Fa` with uppercase
hex — whereas `lowercase(url-encode(uri))` gives `https%3a%2f%2fa`, and
the signature is computed over the code's form. -/
theorem sas_token_encode_order_counterexample :
    (GenerateSASToken (bytes "https://a") (bytes "n") (bytes "k") 3600 0).1
      ≠ sasTokenClaimOrder (bytes "https://a") (bytes "n") (bytes "k") 3600 0 := by
  decide

/-- C2 (amended): the token is
`SharedAccessSignature sr=<u>&sig=<s>&se=<e>&skn=<keyName>` where
`<u> = url-encode(lowercase(resourceURI))` (lowercasing applied BEFORE
percent-encoding), `<e>` is the decimal Unix expiry
`now + expiryDuration`, and `<s>` is the url-encoding of
`base64(HMAC-SHA256(key, <u> + "\n" + <e>))`. -/
theorem sas_token_formula_amended (resourceURI keyName key : List Nat)
    (expiry now : Int) :
    (GenerateSASToken resourceURI keyName key expiry now).1
      = sasTokenAmended resourceURI keyName key expiry now := rfl

set_option maxRecDepth 4000 in
/-- C8, counterexample: the generator also reads the clock, so two
calls with identical `(resourceURI, keyName, key, expiry)` arguments
made one second apart return different tokens (both `se=` and `sig=`
differ). -/
theorem sas_token_clock_counterexample :
    (GenerateSASToken (bytes "https://a") (bytes "n") (bytes "k") 3600 0).1
      ≠ (GenerateSASToken (bytes "https://a") (bytes "n") (bytes "k") 3600 1).1 := by
  decide

/-- C8 (amended): every generated token starts with
`"SharedAccessSignature "` and decomposes as the fields `sr=`, `sig=`,
`se=`, `skn=` in exactly that order, and the generator is deterministic
once the clock reading is fixed: two calls with the same arguments AT
THE SAME Unix second are byte-equal. -/
theorem sas_token_shape_deterministic :
    (∀ (r kn k : List Nat) (d now : Int), ∃ u s e,
        (GenerateSASToken r kn k d now).1
          = bytes "SharedAccessSignature sr=" ++ u ++ bytes "&sig=" ++ s
              ++ bytes "&se=" ++ e ++ bytes "&skn=" ++ kn)
  ∧ (∀ (r kn k : List Nat) (d n1 n2 : Int), n1 = n2 →
        (GenerateSASToken r kn k d n1).1 = (GenerateSASToken r kn k d n2).1) := by
  constructor
  · intro r kn k d now
    exact ⟨queryEscape (r.map toLowerByte),
      queryEscape (sign (queryEscape (r.map toLowerByte)) (now + d) k),
      intDecimal (now + d), rfl⟩
  · intro r kn k d n1 n2 h
    rw [h]

/-- Witness for C8's amended theorem at concrete arguments and a fixed
clock second. -/
theorem sas_token_shape_deterministic_witness :
    (GenerateSASToken (bytes "u") (bytes "kn") (bytes "k") 10 5).1
      = (GenerateSASToken (bytes "u") (bytes "kn") (bytes "k") 10 5).1 :=
  sas_token_shape_deterministic.2 (bytes "u") (bytes "kn") (bytes "k") 10 5 5 rfl
